import Mathlib

/-!
Verification of the metrics-aggregation core of the SACDB waste-remediation
dashboard.  The Python source (`data_processing.py` and the dashboard
callbacks) is shallowly embedded: a pandas DataFrame becomes a `Table`
(a list of column names plus rows of cells), float arithmetic becomes `ℚ`
(all divisions in the source are either guarded by a positivity test or
modelled by the float-like `PFloat` type when unguarded), and Python
exceptions (KeyError / IndexError / parse errors) become `Except String`.
String operations (`split`, `strip`, `startswith`, `in`, ordering) are
modelled on the character lists underlying `String`, matching Python's
code-point-wise semantics.
-/

namespace SACDB

/-! ### String primitives (Python `<=`, `split`, `strip`, `startswith`) -/

/-- Lexicographic comparison of character lists: Python's string `<=`
(code-point lexicographic, shorter prefix first). -/
def lexLe : List Char → List Char → Bool
  | [], _ => true
  | _ :: _, [] => false
  | x :: xs, y :: ys => if x < y then true else if y < x then false else lexLe xs ys

/-- Python string `<=` on `String`. -/
def strLe (a b : String) : Bool := lexLe a.data b.data

/-- `strLe` as a decidable relation, used for the sorts in the source
(`sorted(...)`, `groupby` key ordering). -/
def strLeP (a b : String) : Prop := strLe a b = true

instance : DecidableRel strLeP := fun a b => instDecidableEqBool (strLe a b) true

/-- Python `str.split(sep)` for a single-character separator. -/
def splitOnChar (sep : Char) : List Char → List (List Char)
  | [] => [[]]
  | c :: cs =>
    if c = sep then [] :: splitOnChar sep cs
    else
      match splitOnChar sep cs with
      | [] => [[c]]
      | h :: t => (c :: h) :: t

/-- Python `str.startswith`. -/
def strStartsWith (p s : String) : Bool := p.data.isPrefixOf s.data

/-- Python `c in s` for a single character. -/
def strContainsChar (s : String) (c : Char) : Bool := s.data.contains c

/-- Python `str.strip()`: remove leading and trailing whitespace. -/
def trimStr (s : String) : String :=
  ⟨((s.data.dropWhile Char.isWhitespace).reverse.dropWhile Char.isWhitespace).reverse⟩

/-! ### Cells and tables -/

/-- One DataFrame cell: a string or a (rational-modelled float) number. -/
inductive Cell where
  | s (v : String)
  | n (v : ℚ)
deriving DecidableEq

/-- Numeric reading of a cell (quantity columns are numeric per the data
model; a string cell reads as 0, never exercised under the wellformedness
hypotheses of the theorems). -/
def Cell.toNum : Cell → ℚ
  | .n v => v
  | .s _ => 0

/-- String reading of a cell (key columns are strings per the data model). -/
def Cell.toStr : Cell → String
  | .s v => v
  | .n _ => ""

/-- A pandas DataFrame: named columns and rows of cells, row `r` holding the
value of column `cols[i]` at position `i`. -/
structure Table where
  cols : List String
  rows : List (List Cell)
deriving DecidableEq

/-- Position of a column label, `None` when absent (pandas raises `KeyError`
on access in that case). -/
def Table.colIdx (t : Table) (c : String) : Option Nat :=
  t.cols.findIdx? (fun x => decide (x = c))

/-- Numeric values of column `c`, `[]` when the column is absent (total
companion of `Table.getCol`, only meaningful under presence). -/
def Table.colValsD (t : Table) (c : String) : List ℚ :=
  match t.colIdx c with
  | some i => t.rows.map (fun r => (r.getD i (Cell.s "")).toNum)
  | none => []

/-- String values of column `c`, `[]` when the column is absent. -/
def Table.strValsD (t : Table) (c : String) : List String :=
  match t.colIdx c with
  | some i => t.rows.map (fun r => (r.getD i (Cell.s "")).toStr)
  | none => []

/-- `df[c]` as numbers: raises `KeyError` when `c` is not a column. -/
def Table.getCol (t : Table) (c : String) : Except String (List ℚ) :=
  match t.colIdx c with
  | some i => .ok (t.rows.map (fun r => (r.getD i (Cell.s "")).toNum))
  | none => .error ("KeyError: " ++ c)

/-- `df[c]` as strings: raises `KeyError` when `c` is not a column. -/
def Table.strCol (t : Table) (c : String) : Except String (List String) :=
  match t.colIdx c with
  | some i => .ok (t.rows.map (fun r => (r.getD i (Cell.s "")).toStr))
  | none => .error ("KeyError: " ++ c)

/-- `df[df[c].isin(vals)]`: keep the rows whose value in column `c` is a
member of `vals`; raises `KeyError` when `c` is absent. -/
def Table.filterIsin (t : Table) (c : String) (vals : List String) : Except String Table :=
  match t.colIdx c with
  | some i =>
      .ok ⟨t.cols, t.rows.filter (fun r => decide ((r.getD i (Cell.s "")).toStr ∈ vals))⟩
  | none => .error ("KeyError: " ++ c)

/-- String value of row `r` in the column labelled `c` ("" when absent);
the row-level view of `Table.strValsD`. -/
def rowStr (cols : List String) (r : List Cell) (c : String) : String :=
  match cols.findIdx? (fun x => decide (x = c)) with
  | some i => (r.getD i (Cell.s "")).toStr
  | none => ""

/-! ### Column discovery by name pattern (`data_processing.py`) -/

/-- Column name of the fixed remediation target. -/
def targetCol : String := "Quantity to be remediated in MT"

/-- Column name of the legacy April-30 baseline. -/
def legacyCol : String := "Quantity remediated upto 30th April 2025 in MT"

/-- `[col for col in df.columns if col.startswith('Cumulative Quantity')]`. -/
def datedCols (cols : List String) : List String :=
  cols.filter (fun c => strStartsWith "Cumulative Quantity" c)

/-- `col.split('(')[1].split(')')[0]`, totalised with "" when no "(" is
present (the source either guards that case or raises IndexError; the
theorems carry the corresponding hypotheses). -/
def extractDate (col : String) : String :=
  ⟨(splitOnChar ')' ((splitOnChar '(' col.data).getD 1 [])).getD 0 []⟩

/-- `date_columns[-1] if date_columns else 'Quantity remediated upto ...'`. -/
def latestDateCol (cols : List String) : String :=
  (datedCols cols).getLastD legacyCol

/-- `col.split('(')[1].split(')')[0] if '(' in col else '2025-04-30'`. -/
def latestDateStr (col : String) : String :=
  if strContainsChar col '(' then extractDate col else "2025-04-30"

/-! ### Rounding (`Series.round(1)`) -/

/-- Round to the nearest integer, ties to even (numpy/pandas rounding). -/
def roundHalfEven (q : ℚ) : ℤ :=
  let f := ⌊q⌋
  let r := q - f
  if r < 1 / 2 then f
  else if 1 / 2 < r then f + 1
  else if Even f then f else f + 1

/-- `round(x, 1)`: one decimal place. -/
def round1 (q : ℚ) : ℚ := (roundHalfEven (q * 10) : ℚ) / 10

/-! ### get_dashboard_metrics -/

/-- One row of the `vendor_stats` / `cluster_stats` grouped tables. -/
structure GroupStat where
  key : String
  target : ℚ
  latest : ℚ
  percentComplete : ℚ
deriving DecidableEq

/-- One row of the `ulb_stats` grouped table (grouped by `['ULB','Cluster']`). -/
structure GroupStat2 where
  ulb : String
  cluster : String
  target : ℚ
  latest : ℚ
  percentComplete : ℚ
deriving DecidableEq

/-- Aggregate of the fiber of one group key: summed target, summed
latest-date quantity, and the zero-guarded rounded percentage
(the `mask = target > 0` pattern of the source: rows with zero target keep
the 0.0 default). -/
def mkStat1 (triples : List (String × ℚ × ℚ)) (k : String) : GroupStat :=
  let fib := triples.filter (fun p => decide (p.1 = k))
  let tsum := (fib.map (fun p => p.2.1)).sum
  let lsum := (fib.map (fun p => p.2.2)).sum
  ⟨k, tsum, lsum, if 0 < tsum then round1 (lsum / tsum * 100) else 0⟩

/-- `df.groupby(key).agg({target: 'sum', latest: 'sum'})` plus the guarded
`Percent Complete` column; group keys are the distinct values, sorted
(pandas `groupby` sorts keys). -/
def groupStats1 (keys : List String) (targets latests : List ℚ) : List GroupStat :=
  let triples := keys.zip (targets.zip latests)
  (keys.dedup.insertionSort strLeP).map (mkStat1 triples)

/-- Ordering used for two-level group keys (lexicographic on the pair). -/
def pairLeP (a b : String × String) : Prop :=
  (if a.1 = b.1 then strLe a.2 b.2 else strLe a.1 b.1) = true

instance : DecidableRel pairLeP := fun a b =>
  instDecidableEqBool (if a.1 = b.1 then strLe a.2 b.2 else strLe a.1 b.1) true

/-- Fiber aggregate for a two-column group key. -/
def mkStat2 (triples : List ((String × String) × ℚ × ℚ)) (k : String × String) : GroupStat2 :=
  let fib := triples.filter (fun p => decide (p.1 = k))
  let tsum := (fib.map (fun p => p.2.1)).sum
  let lsum := (fib.map (fun p => p.2.2)).sum
  ⟨k.1, k.2, tsum, lsum, if 0 < tsum then round1 (lsum / tsum * 100) else 0⟩

/-- `df.groupby(['ULB', 'Cluster']).agg(...)` plus the guarded percentage. -/
def groupStats2 (keys : List (String × String)) (targets latests : List ℚ) :
    List GroupStat2 :=
  let triples := keys.zip (targets.zip latests)
  (keys.dedup.insertionSort pairLeP).map (mkStat2 triples)

/-- Result record of `get_dashboard_metrics`. -/
structure Metrics where
  total_to_remediate : ℚ
  total_remediated : ℚ
  percent_complete : ℚ
  april_remediated : ℚ
  latest_date : String
  latest_date_col : String
  vendor_stats : List GroupStat
  cluster_stats : List GroupStat
  ulb_stats : List GroupStat2
deriving DecidableEq

/-- Happy-path value of `get_dashboard_metrics` (the value returned when no
column lookup raises); see `get_dashboard_metrics_ok_iff`. -/
def metricsOf (t : Table) : Metrics :=
  let targets := t.colValsD targetCol
  let ldc := latestDateCol t.cols
  let latests := t.colValsD ldc
  let tt := targets.sum
  let tr := latests.sum
  { total_to_remediate := tt
    total_remediated := tr
    percent_complete := if 0 < tt then tr / tt * 100 else 0
    april_remediated := (t.colValsD legacyCol).sum
    latest_date := latestDateStr ldc
    latest_date_col := ldc
    vendor_stats := groupStats1 (t.strValsD "Vendor") targets latests
    cluster_stats := groupStats1 (t.strValsD "Cluster") targets latests
    ulb_stats := groupStats2 ((t.strValsD "ULB").zip (t.strValsD "Cluster")) targets latests }

/-- `get_dashboard_metrics` (`data_processing.py:51`): totals, the
zero-guarded overall percentage, the latest dated column (legacy fallback),
and the three grouped breakdowns.  Column lookups raise in source order. -/
def get_dashboard_metrics (t : Table) : Except String Metrics :=
  match t.getCol targetCol with
  | .error e => .error e
  | .ok _ =>
    match t.getCol (latestDateCol t.cols) with
    | .error e => .error e
    | .ok _ =>
      match t.getCol legacyCol with
      | .error e => .error e
      | .ok _ =>
        match t.strCol "Vendor" with
        | .error e => .error e
        | .ok _ =>
          match t.strCol "Cluster" with
          | .error e => .error e
          | .ok _ =>
            match t.strCol "ULB" with
            | .error e => .error e
            | .ok _ => .ok (metricsOf t)

/-! ### get_daily_progress and the daily-progress chart -/

/-- `get_daily_progress` (`data_processing.py:140`): one `(date, total)`
pair per dated column, in column order, the date taken verbatim from the
column name (`col.split('(')[1]` raises IndexError when "(" is absent). -/
def get_daily_progress (t : Table) : Except String (List (String × ℚ)) :=
  (datedCols t.cols).mapM (fun c =>
    if strContainsChar c '(' then
      match t.getCol c with
      | .error e => .error e
      | .ok vals => .ok (extractDate c, vals.sum)
    else .error "IndexError: list index out of range")

/-- Date parser for `pd.to_datetime` on the embedded `YYYY-MM-DD` strings of
the data model, as a sortable key `y*10000 + m*100 + d`. -/
def parseDate? (s : String) : Option Nat :=
  match (splitOnChar '-' s.data).map (fun part =>
      if part.isEmpty ∨ part.any (fun c => decide (¬ ('0' ≤ c ∧ c ≤ '9'))) then none
      else some (part.foldl (fun acc c => acc * 10 + (c.toNat - '0'.toNat)) 0)) with
  | [some y, some m, some d] =>
      if 1 ≤ m ∧ m ≤ 12 ∧ 1 ≤ d ∧ d ≤ 31 then some (y * 10000 + m * 100 + d) else none
  | _ => none

/-- Decimal digits of a natural number (fuel-based so it computes in the
kernel). -/
def natToCharsAux : Nat → Nat → List Char
  | 0, _ => []
  | fuel + 1, n =>
    if n < 10 then [Char.ofNat (48 + n)]
    else natToCharsAux fuel (n / 10) ++ [Char.ofNat (48 + n % 10)]

/-- Decimal digits of a natural number. -/
def natToChars (n : Nat) : List Char := natToCharsAux (n + 1) n

/-- Zero-pad to a given width. -/
def padChars (w : Nat) (l : List Char) : List Char :=
  List.replicate (w - l.length) '0' ++ l

/-- `strftime('%Y-%m-%d')` on a date key: the canonical serialization. -/
def formatDateKey (k : Nat) : String :=
  ⟨padChars 4 (natToChars (k / 10000)) ++ '-' ::
    (padChars 2 (natToChars (k / 100 % 100)) ++ '-' :: padChars 2 (natToChars (k % 100)))⟩

/-- Chart sort order: by parsed date key. -/
def keyLeP (a b : Nat × ℚ) : Prop := a.1 ≤ b.1

instance : DecidableRel keyLeP := fun a b => Nat.decLe a.1 b.1

instance : IsTotal (Nat × ℚ) keyLeP := ⟨fun a b => Nat.le_total a.1 b.1⟩

instance : IsTrans (Nat × ℚ) keyLeP := ⟨fun _ _ _ => Nat.le_trans⟩

/-- Dated columns used by `create_daily_progress_chart`: the filtered list
when non-empty, otherwise all dated columns of the table. -/
def chartDatedCols (t : Table) (filteredDateCols : List String) : List String :=
  if filteredDateCols.isEmpty then datedCols t.cols else filteredDateCols

/-- The `daily_totals` accumulation loop of `create_daily_progress_chart`:
one `(date, total)` point per column, skipping malformed or missing columns
(the `try/except IndexError, KeyError` of the source). -/
def chartPoints (t : Table) (filteredDateCols : List String) : List (String × ℚ) :=
  (chartDatedCols t filteredDateCols).filterMap (fun c =>
    if strContainsChar c '(' then
      match t.colIdx c with
      | some i => some (extractDate c, (t.rows.map (fun r => (r.getD i (Cell.s "")).toNum)).sum)
      | none => none
    else none)

/-- Data series of `create_daily_progress_chart`
(`dashboard_callbacks.py:424`): falls back to all dated columns when the
filtered list is empty, skips malformed or missing columns, raises when
`pd.to_datetime` cannot parse a date, sorts by parsed date and re-serializes
each date canonically.  The empty cases return the empty series (the source
shows a placeholder figure). -/
def chartDailyData (t : Table) (filteredDateCols : List String) :
    Except String (List (String × ℚ)) :=
  if (chartDatedCols t filteredDateCols).isEmpty then .ok []
  else if (chartPoints t filteredDateCols).isEmpty then .ok []
  else
    match (chartPoints t filteredDateCols).mapM (fun p =>
        match parseDate? p.1 with
        | some k => Except.ok (k, p.2)
        | none => Except.error ("dateparse: " ++ p.1)) with
    | .error e => .error e
    | .ok keyed =>
        .ok ((keyed.insertionSort keyLeP).map (fun p => (formatDateKey p.1, p.2)))

/-! ### get_geospatial_data -/

/-- IEEE-style result of an unguarded float division. -/
inductive PFloat where
  | val (q : ℚ)
  | inf
  | negInf
  | nan
deriving DecidableEq

/-- Float division: finite quotient for a nonzero divisor, otherwise
signed infinity or NaN (pandas emits these instead of raising). -/
def fdiv (a b : ℚ) : PFloat :=
  if b ≠ 0 then .val (a / b) else if 0 < a then .inf else if a < 0 then .negInf else .nan

/-- Multiplication of a float-division result by 100. -/
def pmul100 : PFloat → PFloat
  | .val q => .val (q * 100)
  | x => x

/-- One row of the `get_geospatial_data` output. -/
structure GeoStat where
  ulb : String
  cluster : String
  target : ℚ
  latest : ℚ
  percentComplete : PFloat
deriving DecidableEq

/-- Fiber aggregate of `get_geospatial_data`: the percentage division is
NOT zero-guarded in the source (`data_processing.py:255`). -/
def mkGeoStat (triples : List ((String × String) × ℚ × ℚ)) (k : String × String) : GeoStat :=
  let fib := triples.filter (fun p => decide (p.1 = k))
  let tsum := (fib.map (fun p => p.2.1)).sum
  let lsum := (fib.map (fun p => p.2.2)).sum
  ⟨k.1, k.2, tsum, lsum, pmul100 (fdiv lsum tsum)⟩

/-- `get_geospatial_data` (`data_processing.py:236`): `[...][-1]` raises
IndexError when no dated column exists; then the `['ULB','Cluster']`
group-by with an unguarded percentage division. -/
def get_geospatial_data (t : Table) : Except String (List GeoStat) :=
  if (datedCols t.cols).isEmpty then .error "IndexError: list index out of range"
  else
    match t.getCol targetCol with
    | .error e => .error e
    | .ok _ =>
      match t.getCol ((datedCols t.cols).getLastD "") with
      | .error e => .error e
      | .ok _ =>
        match t.strCol "ULB" with
        | .error e => .error e
        | .ok _ =>
          match t.strCol "Cluster" with
          | .error e => .error e
          | .ok _ =>
            let targets := t.colValsD targetCol
            let latests := t.colValsD ((datedCols t.cols).getLastD "")
            let keys := (t.strValsD "ULB").zip (t.strValsD "Cluster")
            let triples := keys.zip (targets.zip latests)
            .ok ((keys.dedup.insertionSort pairLeP).map (mkGeoStat triples))

/-! ### Date-range filtering (`update_dashboard`, `dashboard_callbacks.py:152`) -/

/-- Embedded date of `c` lies in `[s, e]` inclusive (Python compares the
date strings directly). -/
def dateInRange (s e c : String) : Prop :=
  strLe s (extractDate c) = true ∧ strLe (extractDate c) e = true

/-- The dated columns whose embedded date is within the inclusive range
(Python compares the date strings directly). -/
def inRangeCols (cols : List String) (startDate endDate : String) : List String :=
  (datedCols cols).filter
    (fun c => strLe startDate (extractDate c) && strLe (extractDate c) endDate)

/-- The dated-column subset used by `update_dashboard`: those whose embedded
date is within `[startDate, endDate]`, falling back to the single latest
dated column when that subset is empty but dated columns exist. -/
def filterDateColumns (cols : List String) (startDate endDate : String) : List String :=
  if (inRangeCols cols startDate endDate).isEmpty && !(datedCols cols).isEmpty
  then [(datedCols cols).getLastD ""] else inRangeCols cols startDate endDate

/-! ### Loader (`_load_data_cached`, `data_processing.py:33`) -/

/-- `.str.strip()` on one cell (the Cluster column is string-valued per the
data model; numeric cells are untouched). -/
def trimCell : Cell → Cell
  | .s v => .s (trimStr v)
  | .n v => .n v

/-- `_load_data_cached`: the CSV read result is passed in (`readResult`
models `pd.read_csv`, which raises on a missing or malformed file); on
success the Cluster column is whitespace-trimmed
(`df['Cluster'] = df['Cluster'].str.strip()`, KeyError when absent). -/
def _load_data_cached (readResult : Except String Table) : Except String Table :=
  match readResult with
  | .error e => .error e
  | .ok df =>
    match df.colIdx "Cluster" with
    | none => .error "KeyError: Cluster"
    | some i =>
        .ok ⟨df.cols, df.rows.map (fun r => r.set i (trimCell (r.getD i (Cell.s ""))))⟩

/-! ### Cross-filtering (`update_filter_options`, `dashboard_callbacks.py:43`) -/

/-- Steps 4-5 of `update_filter_options`: site options from the narrowed
table, then drop the now-invalid site selections. -/
def ufoSites (df2 : Table) (availableClusters selClusters' selSites : List String) :
    Except String (List String × List String × List String × List String) :=
  match df2.strCol "ULB" with
  | .error e => .error e
  | .ok ulbVals =>
    let availableSites := ulbVals.dedup.insertionSort strLeP
    let selSites' :=
      if selSites.isEmpty then selSites
      else selSites.filter (fun s => decide (s ∈ availableSites))
    .ok (availableClusters, selClusters', availableSites, selSites')

/-- `update_filter_options`: vendor selection narrows the rows, cluster
options come from the narrowed rows (`sorted(unique)`), invalid cluster
selections are dropped, the surviving cluster selection narrows further,
and site options/selections are derived from that narrowed table. -/
def update_filter_options (t : Table) (selVendors selClusters selSites : List String) :
    Except String (List String × List String × List String × List String) :=
  match (if selVendors.isEmpty then .ok t else t.filterIsin "Vendor" selVendors) with
  | .error e => .error e
  | .ok df1 =>
    match df1.strCol "Cluster" with
    | .error e => .error e
    | .ok clusterVals =>
      let availableClusters := clusterVals.dedup.insertionSort strLeP
      if selClusters.isEmpty then ufoSites df1 availableClusters selClusters selSites
      else
        let valid := selClusters.filter (fun c => decide (c ∈ availableClusters))
        if valid.isEmpty then ufoSites df1 availableClusters [] selSites
        else
          match df1.filterIsin "Cluster" valid with
          | .error e => .error e
          | .ok df2 => ufoSites df2 availableClusters valid selSites

/-! ### Miscellaneous -/

/-- Whether an `Except` computation succeeded. -/
def exceptIsOk : Except String α → Bool
  | .ok _ => true
  | .error _ => false

/-- The columns whose lookup `get_dashboard_metrics` performs. -/
def requiredPresent (t : Table) : Prop :=
  targetCol ∈ t.cols ∧ latestDateCol t.cols ∈ t.cols ∧ legacyCol ∈ t.cols ∧
    "Vendor" ∈ t.cols ∧ "Cluster" ∈ t.cols ∧ "ULB" ∈ t.cols

instance (t : Table) : Decidable (requiredPresent t) := by
  unfold requiredPresent; infer_instance

/-! ### Concrete tables used by the witnesses and counterexamples -/

/-- A small well-formed table: two rows, two dated columns, one zero-target
group. -/
def Tdemo : Table :=
  ⟨["Vendor", "Cluster", "ULB", "Quantity to be remediated in MT",
    "Quantity remediated upto 30th April 2025 in MT",
    "Cumulative Quantity (2025-05-10)", "Cumulative Quantity (2025-05-12)"],
   [[.s "V1", .s "C1", .s "S1", .n 100, .n 10, .n 20, .n 50],
    [.s "V2", .s "C2", .s "S2", .n 0, .n 0, .n 0, .n 0]]⟩

/-- A table whose dated columns appear in reverse chronological order. -/
def Tscram : Table :=
  ⟨["Vendor", "Cluster", "ULB", "Quantity to be remediated in MT",
    "Quantity remediated upto 30th April 2025 in MT",
    "Cumulative Quantity (2025-05-12)", "Cumulative Quantity (2025-05-10)"],
   [[.s "V1", .s "C1", .s "S1", .n 100, .n 1, .n 7, .n 5]]⟩

/-- A table on which the overall completion percentage is 100/3. -/
def Tthird : Table :=
  ⟨["Vendor", "Cluster", "ULB", "Quantity to be remediated in MT",
    "Quantity remediated upto 30th April 2025 in MT",
    "Cumulative Quantity (2025-05-10)"],
   [[.s "V1", .s "C1", .s "S1", .n 3, .n 0, .n 1]]⟩

/-- A table with one zero-target site that has a positive cumulative
quantity. -/
def Tgeo : Table :=
  ⟨["Vendor", "Cluster", "ULB", "Quantity to be remediated in MT",
    "Quantity remediated upto 30th April 2025 in MT",
    "Cumulative Quantity (2025-05-10)"],
   [[.s "V1", .s "C1", .s "S1", .n 0, .n 0, .n 5]]⟩

/-- A table lacking the legacy April-30 baseline column but having a dated
cumulative column. -/
def Tnolegacy : Table :=
  ⟨["Vendor", "Cluster", "ULB", "Quantity to be remediated in MT",
    "Cumulative Quantity (2025-05-10)"],
   [[.s "V1", .s "C1", .s "S1", .n 100, .n 20]]⟩

/-- A table with all required columns and zero rows. -/
def Tempty : Table :=
  ⟨["Vendor", "Cluster", "ULB", "Quantity to be remediated in MT",
    "Quantity remediated upto 30th April 2025 in MT",
    "Cumulative Quantity (2025-05-10)"],
   []⟩

/-- A table whose Cluster cells carry surrounding whitespace. -/
def Tpad : Table :=
  ⟨["Vendor", "Cluster", "ULB", "Quantity to be remediated in MT",
    "Quantity remediated upto 30th April 2025 in MT",
    "Cumulative Quantity (2025-05-10)"],
   [[.s "V1", .s " C1 ", .s "S1", .n 100, .n 10, .n 20]]⟩

/-- Zero-row table with reverse-ordered dated columns, for evaluating the
chart series in the kernel. -/
def TscramEmpty : Table :=
  ⟨["Vendor", "Cluster", "ULB", "Quantity to be remediated in MT",
    "Quantity remediated upto 30th April 2025 in MT",
    "Cumulative Quantity (2025-05-12)", "Cumulative Quantity (2025-05-10)"],
   []⟩

/-! ### Library of helper lemmas -/

theorem colIdx_isSome_iff (t : Table) (c : String) :
    (t.colIdx c).isSome = true ↔ c ∈ t.cols := by
  unfold Table.colIdx
  rw [List.findIdx?_isSome, List.any_eq_true]
  simp

theorem getCol_ok (t : Table) {c : String} (h : c ∈ t.cols) :
    t.getCol c = .ok (t.colValsD c) := by
  have hs : (t.colIdx c).isSome = true := (colIdx_isSome_iff t c).mpr h
  unfold Table.getCol Table.colValsD
  cases hidx : t.colIdx c with
  | none => rw [hidx] at hs; simp at hs
  | some i => simp

theorem getCol_ok_mem {t : Table} {c : String} {l : List ℚ}
    (h : t.getCol c = .ok l) : c ∈ t.cols := by
  rw [← colIdx_isSome_iff]
  unfold Table.getCol at h
  cases hidx : t.colIdx c with
  | none => rw [hidx] at h; simp at h
  | some i => simp

theorem strCol_ok (t : Table) {c : String} (h : c ∈ t.cols) :
    t.strCol c = .ok (t.strValsD c) := by
  have hs : (t.colIdx c).isSome = true := (colIdx_isSome_iff t c).mpr h
  unfold Table.strCol Table.strValsD
  cases hidx : t.colIdx c with
  | none => rw [hidx] at hs; simp at hs
  | some i => simp

theorem strCol_ok_mem {t : Table} {c : String} {l : List String}
    (h : t.strCol c = .ok l) : c ∈ t.cols := by
  rw [← colIdx_isSome_iff]
  unfold Table.strCol at h
  cases hidx : t.colIdx c with
  | none => rw [hidx] at h; simp at h
  | some i => simp

theorem exceptIsOk_true_iff {α : Type} (x : Except String α) :
    exceptIsOk x = true ↔ ∃ v, x = .ok v := by
  cases x <;> simp [exceptIsOk]

theorem isEmpty_false_of_ne_nil {α : Type} {l : List α} (h : l ≠ []) :
    l.isEmpty = false := by
  cases l with
  | nil => exact absurd rfl h
  | cons a l => rfl

theorem eq_nil_of_isEmpty {α : Type} {l : List α} (h : l.isEmpty = true) : l = [] := by
  cases l with
  | nil => rfl
  | cons a l => simp [List.isEmpty] at h

theorem ne_nil_of_isEmpty_false {α : Type} {l : List α} (h : ¬ l.isEmpty = true) :
    l ≠ [] := by
  intro hcon
  rw [hcon] at h
  exact h rfl

theorem strValsD_mem {t : Table} {c : String} (h : c ∈ t.cols) (x : String) :
    x ∈ t.strValsD c ↔ ∃ r ∈ t.rows, rowStr t.cols r c = x := by
  have hs : (t.colIdx c).isSome = true := (colIdx_isSome_iff t c).mpr h
  cases hidx : t.colIdx c with
  | none => rw [hidx] at hs; simp at hs
  | some i =>
    have hidx2 : t.cols.findIdx? (fun x => decide (x = c)) = some i := hidx
    unfold Table.strValsD rowStr
    rw [hidx, hidx2]
    exact List.mem_map

theorem filterIsin_ok {t : Table} {c : String} (h : c ∈ t.cols) (vals : List String) :
    t.filterIsin c vals
      = .ok ⟨t.cols, t.rows.filter (fun r => decide (rowStr t.cols r c ∈ vals))⟩ := by
  have hs : (t.colIdx c).isSome = true := (colIdx_isSome_iff t c).mpr h
  cases hidx : t.colIdx c with
  | none => rw [hidx] at hs; simp at hs
  | some i =>
    have hrow : ∀ r : List Cell, rowStr t.cols r c = (r.getD i (Cell.s "")).toStr := by
      intro r
      unfold rowStr
      rw [show t.cols.findIdx? (fun x => decide (x = c)) = some i from hidx]
    unfold Table.filterIsin
    rw [hidx]
    simp only [hrow]

/-- Steps 4-5 of `update_filter_options`, characterized: the returned site
options are exactly the ULB values of the narrowed table, and the returned
site selection is a subset of them. -/
theorem ufoSites_spec (df2 : Table) (co vc ss : List String) (hU : "ULB" ∈ df2.cols) :
    ∃ so vs, ufoSites df2 co vc ss = .ok (co, vc, so, vs) ∧
      (∀ s ∈ vs, s ∈ so) ∧
      (∀ s, s ∈ so ↔ ∃ r ∈ df2.rows, rowStr df2.cols r "ULB" = s) := by
  refine ⟨(df2.strValsD "ULB").dedup.insertionSort strLeP,
    (if ss.isEmpty then ss
      else ss.filter (fun s =>
        decide (s ∈ (df2.strValsD "ULB").dedup.insertionSort strLeP))), ?_, ?_, ?_⟩
  · unfold ufoSites
    rw [strCol_ok df2 hU]
  · intro s hs
    by_cases hss : ss.isEmpty = true
    · rw [if_pos hss] at hs
      rw [eq_nil_of_isEmpty hss] at hs
      simp at hs
    · rw [if_neg hss] at hs
      exact of_decide_eq_true (List.mem_filter.mp hs).2
  · intro s
    rw [List.mem_insertionSort, List.mem_dedup]
    exact strValsD_mem hU s

/-- Inversion of `get_dashboard_metrics`: it succeeds exactly when every
column it touches is present, and then returns `metricsOf`. -/
theorem gdm_ok_iff (t : Table) (m : Metrics) :
    get_dashboard_metrics t = .ok m ↔ (requiredPresent t ∧ m = metricsOf t) := by
  constructor
  · intro h
    unfold get_dashboard_metrics at h
    cases h1 : t.getCol targetCol with
    | error e => rw [h1] at h; simp at h
    | ok l1 =>
      rw [h1] at h
      cases h2 : t.getCol (latestDateCol t.cols) with
      | error e => rw [h2] at h; simp at h
      | ok l2 =>
        rw [h2] at h
        cases h3 : t.getCol legacyCol with
        | error e => rw [h3] at h; simp at h
        | ok l3 =>
          rw [h3] at h
          cases h4 : t.strCol "Vendor" with
          | error e => rw [h4] at h; simp at h
          | ok l4 =>
            rw [h4] at h
            cases h5 : t.strCol "Cluster" with
            | error e => rw [h5] at h; simp at h
            | ok l5 =>
              rw [h5] at h
              cases h6 : t.strCol "ULB" with
              | error e => rw [h6] at h; simp at h
              | ok l6 =>
                rw [h6] at h
                simp at h
                exact ⟨⟨getCol_ok_mem h1, getCol_ok_mem h2, getCol_ok_mem h3,
                  strCol_ok_mem h4, strCol_ok_mem h5, strCol_ok_mem h6⟩, h.symm⟩
  · rintro ⟨⟨h1, h2, h3, h4, h5, h6⟩, rfl⟩
    unfold get_dashboard_metrics
    rw [getCol_ok t h1, getCol_ok t h2, getCol_ok t h3,
      strCol_ok t h4, strCol_ok t h5, strCol_ok t h6]

theorem sum_map_ite_zero_of_not_mem {ks : List String} {x : String} {c : ℚ}
    (hx : x ∉ ks) : (ks.map (fun k => if x = k then c else 0)).sum = 0 := by
  induction ks with
  | nil => simp
  | cons k ks ih =>
    rw [List.mem_cons, not_or] at hx
    simp only [List.map_cons, List.sum_cons, if_neg hx.1, ih hx.2, add_zero]

theorem sum_map_ite_zero {ks : List String} {x : String} {c : ℚ}
    (hnd : ks.Nodup) (hx : x ∈ ks) :
    (ks.map (fun k => if x = k then c else 0)).sum = c := by
  induction ks with
  | nil => simp at hx
  | cons k ks ih =>
    rw [List.nodup_cons] at hnd
    rw [List.mem_cons] at hx
    rcases hx with hx | hx
    · subst hx
      rw [List.map_cons, List.sum_cons, if_pos rfl,
        sum_map_ite_zero_of_not_mem hnd.1, add_zero]
    · have hxk : x ≠ k := fun hcon => hnd.1 (hcon ▸ hx)
      simp only [List.map_cons, List.sum_cons, if_neg hxk, ih hnd.2 hx, zero_add]

/-- Summing the per-key fiber sums over a duplicate-free covering key list
recovers the total sum. -/
theorem sum_fiberwise {β : Type} (l : List (String × β)) (f : β → ℚ) (ks : List String)
    (hnd : ks.Nodup) (hcov : ∀ p ∈ l, p.1 ∈ ks) :
    (ks.map (fun k =>
      ((l.filter (fun p => decide (p.1 = k))).map (fun p => f p.2)).sum)).sum
    = (l.map (fun p => f p.2)).sum := by
  induction l with
  | nil => simp
  | cons p l ih =>
    have step : ∀ k, ((List.filter (fun q => decide (q.1 = k)) (p :: l)).map
        (fun q => f q.2)).sum
        = (if p.1 = k then f p.2 else 0)
          + ((List.filter (fun q => decide (q.1 = k)) l).map (fun q => f q.2)).sum := by
      intro k
      by_cases hpk : p.1 = k <;> simp [List.filter_cons, hpk]
    rw [List.map_congr_left (fun k _ => step k), List.sum_map_add]
    rw [sum_map_ite_zero hnd (hcov p (List.mem_cons_self p l))]
    rw [ih (fun q hq => hcov q (List.mem_cons_of_mem p hq))]
    simp

theorem groupStats1_key_sums (keys : List String) (targets latests : List ℚ)
    (h1 : keys.length = targets.length) (h2 : targets.length = latests.length) :
    ((groupStats1 keys targets latests).map GroupStat.target).sum = targets.sum ∧
    ((groupStats1 keys targets latests).map GroupStat.latest).sum = latests.sum := by
  unfold groupStats1
  have hzlen : (targets.zip latests).length = targets.length := by
    rw [List.length_zip, h2, min_self]
  have hvals : (keys.zip (targets.zip latests)).map Prod.snd = targets.zip latests :=
    List.map_snd_zip _ _ (by rw [hzlen, h1])
  have hperm : ((keys.dedup.insertionSort strLeP).map
        (fun k => mkStat1 (keys.zip (targets.zip latests)) k)).Perm
      (keys.dedup.map (fun k => mkStat1 (keys.zip (targets.zip latests)) k)) :=
    (List.perm_insertionSort strLeP keys.dedup).map _
  have hcov : ∀ p ∈ keys.zip (targets.zip latests), p.1 ∈ keys.dedup := by
    intro p hp
    rcases p with ⟨k, v⟩
    exact List.mem_dedup.mpr (List.of_mem_zip hp).1
  have htval : (keys.zip (targets.zip latests)).map (fun p => p.2.1) = targets := by
    have h' := congrArg (List.map Prod.fst) hvals
    rw [List.map_map, List.map_fst_zip _ _ (le_of_eq h2)] at h'
    exact h'
  have hlval : (keys.zip (targets.zip latests)).map (fun p => p.2.2) = latests := by
    have h' := congrArg (List.map Prod.snd) hvals
    rw [List.map_map, List.map_snd_zip _ _ (le_of_eq h2.symm)] at h'
    exact h'
  constructor
  · rw [List.map_map]
    have hps := (hperm.map GroupStat.target).sum_eq
    rw [List.map_map, List.map_map] at hps
    rw [hps]
    have hfib := sum_fiberwise (keys.zip (targets.zip latests)) Prod.fst keys.dedup
      (List.nodup_dedup keys) hcov
    have hfun : keys.dedup.map (GroupStat.target ∘ fun k =>
          mkStat1 (keys.zip (targets.zip latests)) k)
        = keys.dedup.map (fun k =>
          (((keys.zip (targets.zip latests)).filter (fun p => decide (p.1 = k))).map
            (fun p => Prod.fst p.2)).sum) :=
      List.map_congr_left (fun k _ => rfl)
    rw [hfun, hfib, htval]
  · rw [List.map_map]
    have hps := (hperm.map GroupStat.latest).sum_eq
    rw [List.map_map, List.map_map] at hps
    rw [hps]
    have hfib := sum_fiberwise (keys.zip (targets.zip latests)) Prod.snd keys.dedup
      (List.nodup_dedup keys) hcov
    have hfun : keys.dedup.map (GroupStat.latest ∘ fun k =>
          mkStat1 (keys.zip (targets.zip latests)) k)
        = keys.dedup.map (fun k =>
          (((keys.zip (targets.zip latests)).filter (fun p => decide (p.1 = k))).map
            (fun p => Prod.snd p.2)).sum) :=
      List.map_congr_left (fun k _ => rfl)
    rw [hfun, hfib, hlval]

theorem colValsD_length {t : Table} {c : String} (h : c ∈ t.cols) :
    (t.colValsD c).length = t.rows.length := by
  have hs : (t.colIdx c).isSome = true := (colIdx_isSome_iff t c).mpr h
  unfold Table.colValsD
  cases hidx : t.colIdx c with
  | none => rw [hidx] at hs; simp at hs
  | some i => simp

theorem mkStat1_target (triples : List (String × ℚ × ℚ)) (k : String) :
    (mkStat1 triples k).target
      = ((triples.filter (fun p => decide (p.1 = k))).map (fun p => p.2.1)).sum := rfl

theorem mkStat1_latest (triples : List (String × ℚ × ℚ)) (k : String) :
    (mkStat1 triples k).latest
      = ((triples.filter (fun p => decide (p.1 = k))).map (fun p => p.2.2)).sum := rfl

theorem mkStat1_pc (triples : List (String × ℚ × ℚ)) (k : String) :
    (mkStat1 triples k).percentComplete
      = (if 0 < (mkStat1 triples k).target
          then round1 ((mkStat1 triples k).latest / (mkStat1 triples k).target * 100)
          else 0) := rfl

theorem mkStat1_zero (triples : List (String × ℚ × ℚ)) (k : String)
    (h : (mkStat1 triples k).target = 0) : (mkStat1 triples k).percentComplete = 0 := by
  rw [mkStat1_pc, h]
  simp

theorem mkStat2_target (triples : List ((String × String) × ℚ × ℚ)) (k : String × String) :
    (mkStat2 triples k).target
      = ((triples.filter (fun p => decide (p.1 = k))).map (fun p => p.2.1)).sum := rfl

theorem mkStat2_pc (triples : List ((String × String) × ℚ × ℚ)) (k : String × String) :
    (mkStat2 triples k).percentComplete
      = (if 0 < (mkStat2 triples k).target
          then round1 ((mkStat2 triples k).latest / (mkStat2 triples k).target * 100)
          else 0) := rfl

theorem mkStat2_zero (triples : List ((String × String) × ℚ × ℚ)) (k : String × String)
    (h : (mkStat2 triples k).target = 0) : (mkStat2 triples k).percentComplete = 0 := by
  rw [mkStat2_pc, h]
  simp

theorem strValsD_length {t : Table} {c : String} (h : c ∈ t.cols) :
    (t.strValsD c).length = t.rows.length := by
  have hs : (t.colIdx c).isSome = true := (colIdx_isSome_iff t c).mpr h
  unfold Table.strValsD
  cases hidx : t.colIdx c with
  | none => rw [hidx] at hs; simp at hs
  | some i => simp

/-! ### Claim theorems -/

/-- C4: for every non-empty input table, the vendor-grouped statistics
returned by `get_dashboard_metrics` preserve the overall totals — the sum
over all vendor groups of the summed target equals `total_to_remediate`,
and the sum over all vendor groups of the summed latest-date quantity
equals `total_remediated`. -/
theorem C4_grouping_preserves_totals (t : Table) (m : Metrics)
    (hne : t.rows ≠ []) (h : get_dashboard_metrics t = .ok m) :
    (m.vendor_stats.map GroupStat.target).sum = m.total_to_remediate ∧
    (m.vendor_stats.map GroupStat.latest).sum = m.total_remediated := by
  obtain ⟨hp, rfl⟩ := (gdm_ok_iff t m).mp h
  obtain ⟨h1, h2, h3, h4, h5, h6⟩ := hp
  have hv : (metricsOf t).vendor_stats = groupStats1 (t.strValsD "Vendor")
      (t.colValsD targetCol) (t.colValsD (latestDateCol t.cols)) := rfl
  have htt : (metricsOf t).total_to_remediate = (t.colValsD targetCol).sum := rfl
  have htr : (metricsOf t).total_remediated
      = (t.colValsD (latestDateCol t.cols)).sum := rfl
  rw [hv, htt, htr]
  exact groupStats1_key_sums _ _ _
    (by rw [strValsD_length h4, colValsD_length h1])
    (by rw [colValsD_length h1, colValsD_length h2])

theorem C4_witness :
    ((metricsOf Tdemo).vendor_stats.map GroupStat.target).sum
      = (metricsOf Tdemo).total_to_remediate ∧
    ((metricsOf Tdemo).vendor_stats.map GroupStat.latest).sum
      = (metricsOf Tdemo).total_remediated :=
  C4_grouping_preserves_totals Tdemo (metricsOf Tdemo) (by decide)
    ((gdm_ok_iff Tdemo (metricsOf Tdemo)).mpr ⟨by decide, rfl⟩)

/-- C9: on an empty table (zero rows, required columns present)
`get_dashboard_metrics` returns without raising, with all-zero totals and
percentage and empty grouped statistics. -/
theorem C9_empty_table (t : Table) (hr : t.rows = []) (hp : requiredPresent t) :
    ∃ m, get_dashboard_metrics t = .ok m ∧ m.total_to_remediate = 0 ∧
      m.total_remediated = 0 ∧ m.percent_complete = 0 ∧
      m.vendor_stats = [] ∧ m.cluster_stats = [] ∧ m.ulb_stats = [] := by
  have hc : ∀ c, t.colValsD c = [] := by
    intro c
    unfold Table.colValsD
    cases t.colIdx c <;> simp [hr]
  have hs : ∀ c, t.strValsD c = [] := by
    intro c
    unfold Table.strValsD
    cases t.colIdx c <;> simp [hr]
  refine ⟨metricsOf t, (gdm_ok_iff t _).mpr ⟨hp, rfl⟩, ?_, ?_, ?_, ?_, ?_, ?_⟩ <;>
    simp [metricsOf, hc, hs, groupStats1, groupStats2]

theorem C9_witness :
    ∃ m, get_dashboard_metrics Tempty = .ok m ∧ m.total_to_remediate = 0 ∧
      m.total_remediated = 0 ∧ m.percent_complete = 0 ∧
      m.vendor_stats = [] ∧ m.cluster_stats = [] ∧ m.ulb_stats = [] :=
  C9_empty_table Tempty rfl (by decide)

/-- C10: `get_dashboard_metrics` reads the legacy April-30 baseline column
unconditionally, so it fails with a key-lookup error on every table lacking
that column (dated cumulative columns present or not). -/
theorem C10_legacy_required (t : Table) (h : legacyCol ∉ t.cols) :
    exceptIsOk (get_dashboard_metrics t) = false := by
  by_contra hcon
  rw [Bool.not_eq_false, exceptIsOk_true_iff] at hcon
  obtain ⟨m, hm⟩ := hcon
  exact h ((gdm_ok_iff t m).mp hm).1.2.2.1

theorem C10_witness : exceptIsOk (get_dashboard_metrics Tnolegacy) = false :=
  C10_legacy_required Tnolegacy (by decide)

/-- C7: `get_dashboard_metrics` takes the last column bearing the
"Cumulative Quantity" name pattern as the latest dated field; when none
exists it falls back to the legacy baseline column and reports the
hard-coded date string "2025-04-30". -/
theorem C7_latest_column (t : Table) (m : Metrics)
    (h : get_dashboard_metrics t = .ok m) :
    m.latest_date_col = (datedCols t.cols).getLastD legacyCol ∧
    m.latest_date = latestDateStr m.latest_date_col ∧
    (datedCols t.cols = [] → m.latest_date_col = legacyCol ∧ m.latest_date = "2025-04-30") := by
  obtain ⟨hp, rfl⟩ := (gdm_ok_iff t m).mp h
  refine ⟨rfl, rfl, fun hd => ?_⟩
  have hcol : latestDateCol t.cols = legacyCol := by
    unfold latestDateCol
    rw [hd]
    rfl
  constructor
  · exact hcol
  · show latestDateStr (latestDateCol t.cols) = "2025-04-30"
    rw [hcol]
    rfl

theorem C7_witness :
    (metricsOf Tdemo).latest_date_col = (datedCols Tdemo.cols).getLastD legacyCol ∧
    (metricsOf Tdemo).latest_date = latestDateStr (metricsOf Tdemo).latest_date_col ∧
    (datedCols Tdemo.cols = [] → (metricsOf Tdemo).latest_date_col = legacyCol ∧
      (metricsOf Tdemo).latest_date = "2025-04-30") :=
  C7_latest_column Tdemo (metricsOf Tdemo)
    ((gdm_ok_iff Tdemo (metricsOf Tdemo)).mpr ⟨by decide, rfl⟩)

/-- C1 (amended): within `get_dashboard_metrics` every completion
percentage is zero-guarded — the overall percentage is 0 when the total
target is 0, and every vendor / cluster / ULB group whose target sum is 0
has percent-complete exactly 0.  (The geospatial grouping is excluded: its
division is unguarded, see `C1_counterexample`.) -/
theorem C1_zero_guarded_percentages (t : Table) (m : Metrics)
    (h : get_dashboard_metrics t = .ok m) :
    (m.total_to_remediate = 0 → m.percent_complete = 0) ∧
    (∀ g ∈ m.vendor_stats, g.target = 0 → g.percentComplete = 0) ∧
    (∀ g ∈ m.cluster_stats, g.target = 0 → g.percentComplete = 0) ∧
    (∀ g ∈ m.ulb_stats, g.target = 0 → g.percentComplete = 0) := by
  obtain ⟨hp, rfl⟩ := (gdm_ok_iff t m).mp h
  refine ⟨?_, ?_, ?_, ?_⟩
  · intro h0
    have h0' : (t.colValsD targetCol).sum = 0 := h0
    show (if 0 < (t.colValsD targetCol).sum
        then (t.colValsD (latestDateCol t.cols)).sum / (t.colValsD targetCol).sum * 100
        else 0) = 0
    rw [h0']
    simp
  · intro g hg h0
    have hg' : g ∈ ((t.strValsD "Vendor").dedup.insertionSort strLeP).map
        (mkStat1 ((t.strValsD "Vendor").zip
          ((t.colValsD targetCol).zip (t.colValsD (latestDateCol t.cols))))) := hg
    obtain ⟨k, _, hk⟩ := List.mem_map.mp hg'
    rw [← hk] at h0 ⊢
    exact mkStat1_zero _ _ h0
  · intro g hg h0
    have hg' : g ∈ ((t.strValsD "Cluster").dedup.insertionSort strLeP).map
        (mkStat1 ((t.strValsD "Cluster").zip
          ((t.colValsD targetCol).zip (t.colValsD (latestDateCol t.cols))))) := hg
    obtain ⟨k, _, hk⟩ := List.mem_map.mp hg'
    rw [← hk] at h0 ⊢
    exact mkStat1_zero _ _ h0
  · intro g hg h0
    have hg' : g ∈ ((((t.strValsD "ULB").zip (t.strValsD "Cluster")).dedup.insertionSort
        pairLeP).map
        (mkStat2 (((t.strValsD "ULB").zip (t.strValsD "Cluster")).zip
          ((t.colValsD targetCol).zip (t.colValsD (latestDateCol t.cols)))))) := hg
    obtain ⟨k, _, hk⟩ := List.mem_map.mp hg'
    rw [← hk] at h0 ⊢
    exact mkStat2_zero _ _ h0

theorem C1_witness :
    ((metricsOf Tdemo).total_to_remediate = 0 → (metricsOf Tdemo).percent_complete = 0) ∧
    (∀ g ∈ (metricsOf Tdemo).vendor_stats, g.target = 0 → g.percentComplete = 0) ∧
    (∀ g ∈ (metricsOf Tdemo).cluster_stats, g.target = 0 → g.percentComplete = 0) ∧
    (∀ g ∈ (metricsOf Tdemo).ulb_stats, g.target = 0 → g.percentComplete = 0) :=
  C1_zero_guarded_percentages Tdemo (metricsOf Tdemo)
    ((gdm_ok_iff Tdemo (metricsOf Tdemo)).mpr ⟨by decide, rfl⟩)

/-- C1 (counterexample): in `get_geospatial_data` the percentage division is
not zero-guarded — on a table with one zero-target site holding a positive
cumulative quantity, the computed percent-complete is positive infinity,
not 0. -/
theorem C1_counterexample :
    get_geospatial_data Tgeo
      = .ok [{ ulb := "S1", cluster := "C1", target := 0, latest := 5,
               percentComplete := PFloat.inf }] ∧
    PFloat.inf ≠ PFloat.val 0 := by
  constructor
  · have key : get_geospatial_data Tgeo
        = .ok [mkGeoStat [(("S1", "C1"), ((0 : ℚ), (5 : ℚ)))] ("S1", "C1")] := rfl
    rw [key]
    have heval : mkGeoStat [(("S1", "C1"), ((0 : ℚ), (5 : ℚ)))] ("S1", "C1")
        = { ulb := "S1", cluster := "C1", target := 0, latest := 5,
            percentComplete := PFloat.inf } := by
      unfold mkGeoStat
      norm_num [fdiv, pmul100]
    rw [heval]
  · decide

/-- C3 (counterexample): the overall `percent_complete` returned by
`get_dashboard_metrics` is NOT rounded to one decimal place — on a table
with target 3 and latest quantity 1 it is exactly 100/3, which is neither a
fixed point of one-decimal rounding nor of the form k/10. -/
theorem C3_counterexample :
    (get_dashboard_metrics Tthird).map Metrics.percent_complete = .ok (100 / 3) ∧
    (100 / 3 : ℚ) ≠ round1 (100 / 3) ∧
    ¬ ∃ k : ℤ, (100 / 3 : ℚ) = (k : ℚ) / 10 := by
  refine ⟨?_, ?_, ?_⟩
  · have hok : get_dashboard_metrics Tthird = .ok (metricsOf Tthird) :=
      (gdm_ok_iff Tthird (metricsOf Tthird)).mpr ⟨by decide, rfl⟩
    rw [hok]
    have h1 : Tthird.colValsD targetCol = [3] := rfl
    have h2 : Tthird.colValsD (latestDateCol Tthird.cols) = [1] := rfl
    have hpc : (metricsOf Tthird).percent_complete = 100 / 3 := by
      show (if 0 < (Tthird.colValsD targetCol).sum
          then (Tthird.colValsD (latestDateCol Tthird.cols)).sum
            / (Tthird.colValsD targetCol).sum * 100
          else 0) = 100 / 3
      rw [h1, h2]
      norm_num
    simp [Except.map, hpc]
  · have hfl : ⌊(100 / 3 : ℚ) * 10⌋ = 333 := by
      rw [show (100 / 3 : ℚ) * 10 = 1000 / 3 by norm_num, Int.floor_eq_iff]
      norm_num
    unfold round1 roundHalfEven
    rw [hfl]
    norm_num
  · rintro ⟨k, hk⟩
    have hk' : (1000 : ℚ) = 3 * (k : ℚ) := by
      field_simp at hk
      linarith
    have hk2 : (1000 : ℤ) = 3 * k := by exact_mod_cast hk'
    omega

/-- C3 (amended): in `get_dashboard_metrics` every grouped percentage
(vendor, cluster, ULB) is `round(x, 1)` of the exact ratio — hence of the
form k/10 — while the overall `percent_complete` and the summed target and
latest-date quantities are exact, unrounded values. -/
theorem C3_rounding (t : Table) (m : Metrics)
    (h : get_dashboard_metrics t = .ok m) :
    (∀ g ∈ m.vendor_stats,
      (0 < g.target → g.percentComplete = round1 (g.latest / g.target * 100)) ∧
      ∃ k : ℤ, g.percentComplete = (k : ℚ) / 10) ∧
    (∀ g ∈ m.cluster_stats,
      (0 < g.target → g.percentComplete = round1 (g.latest / g.target * 100)) ∧
      ∃ k : ℤ, g.percentComplete = (k : ℚ) / 10) ∧
    (∀ g ∈ m.ulb_stats,
      (0 < g.target → g.percentComplete = round1 (g.latest / g.target * 100)) ∧
      ∃ k : ℤ, g.percentComplete = (k : ℚ) / 10) ∧
    (0 < m.total_to_remediate →
      m.percent_complete = m.total_remediated / m.total_to_remediate * 100) := by
  obtain ⟨hp, rfl⟩ := (gdm_ok_iff t m).mp h
  have stat1 : ∀ (triples : List (String × ℚ × ℚ)) (k : String),
      (0 < (mkStat1 triples k).target → (mkStat1 triples k).percentComplete
        = round1 ((mkStat1 triples k).latest / (mkStat1 triples k).target * 100)) ∧
      ∃ z : ℤ, (mkStat1 triples k).percentComplete = (z : ℚ) / 10 := by
    intro triples k
    constructor
    · intro hpos
      rw [mkStat1_pc, if_pos hpos]
    · rw [mkStat1_pc]
      by_cases hpos : 0 < (mkStat1 triples k).target
      · rw [if_pos hpos]
        exact ⟨roundHalfEven ((mkStat1 triples k).latest / (mkStat1 triples k).target
          * 100 * 10), rfl⟩
      · rw [if_neg hpos]
        exact ⟨0, by norm_num⟩
  have stat2 : ∀ (triples : List ((String × String) × ℚ × ℚ)) (k : String × String),
      (0 < (mkStat2 triples k).target → (mkStat2 triples k).percentComplete
        = round1 ((mkStat2 triples k).latest / (mkStat2 triples k).target * 100)) ∧
      ∃ z : ℤ, (mkStat2 triples k).percentComplete = (z : ℚ) / 10 := by
    intro triples k
    constructor
    · intro hpos
      rw [mkStat2_pc, if_pos hpos]
    · rw [mkStat2_pc]
      by_cases hpos : 0 < (mkStat2 triples k).target
      · rw [if_pos hpos]
        exact ⟨roundHalfEven ((mkStat2 triples k).latest / (mkStat2 triples k).target
          * 100 * 10), rfl⟩
      · rw [if_neg hpos]
        exact ⟨0, by norm_num⟩
  refine ⟨?_, ?_, ?_, ?_⟩
  · intro g hg
    have hg' : g ∈ ((t.strValsD "Vendor").dedup.insertionSort strLeP).map
        (mkStat1 ((t.strValsD "Vendor").zip
          ((t.colValsD targetCol).zip (t.colValsD (latestDateCol t.cols))))) := hg
    obtain ⟨k, _, hk⟩ := List.mem_map.mp hg'
    rw [← hk]
    exact stat1 _ k
  · intro g hg
    have hg' : g ∈ ((t.strValsD "Cluster").dedup.insertionSort strLeP).map
        (mkStat1 ((t.strValsD "Cluster").zip
          ((t.colValsD targetCol).zip (t.colValsD (latestDateCol t.cols))))) := hg
    obtain ⟨k, _, hk⟩ := List.mem_map.mp hg'
    rw [← hk]
    exact stat1 _ k
  · intro g hg
    have hg' : g ∈ ((((t.strValsD "ULB").zip (t.strValsD "Cluster")).dedup.insertionSort
        pairLeP).map
        (mkStat2 (((t.strValsD "ULB").zip (t.strValsD "Cluster")).zip
          ((t.colValsD targetCol).zip (t.colValsD (latestDateCol t.cols)))))) := hg
    obtain ⟨k, _, hk⟩ := List.mem_map.mp hg'
    rw [← hk]
    exact stat2 _ k
  · intro hpos
    have hpos' : 0 < (t.colValsD targetCol).sum := hpos
    show (if 0 < (t.colValsD targetCol).sum
        then (t.colValsD (latestDateCol t.cols)).sum / (t.colValsD targetCol).sum * 100
        else 0)
      = (t.colValsD (latestDateCol t.cols)).sum / (t.colValsD targetCol).sum * 100
    rw [if_pos hpos']

theorem C3_witness :
    (∀ g ∈ (metricsOf Tdemo).vendor_stats,
      (0 < g.target → g.percentComplete = round1 (g.latest / g.target * 100)) ∧
      ∃ k : ℤ, g.percentComplete = (k : ℚ) / 10) ∧
    (∀ g ∈ (metricsOf Tdemo).cluster_stats,
      (0 < g.target → g.percentComplete = round1 (g.latest / g.target * 100)) ∧
      ∃ k : ℤ, g.percentComplete = (k : ℚ) / 10) ∧
    (∀ g ∈ (metricsOf Tdemo).ulb_stats,
      (0 < g.target → g.percentComplete = round1 (g.latest / g.target * 100)) ∧
      ∃ k : ℤ, g.percentComplete = (k : ℚ) / 10) ∧
    (0 < (metricsOf Tdemo).total_to_remediate →
      (metricsOf Tdemo).percent_complete
        = (metricsOf Tdemo).total_remediated / (metricsOf Tdemo).total_to_remediate * 100) :=
  C3_rounding Tdemo (metricsOf Tdemo)
    ((gdm_ok_iff Tdemo (metricsOf Tdemo)).mpr ⟨by decide, rfl⟩)

/-- C2 (counterexample): `get_daily_progress` emits the `(date, total)`
pairs in the order the dated columns appear in the table — on a table whose
dated columns are in reverse chronological order, the output dates are
descending, not ascending by parsed date. -/
theorem C2_counterexample :
    get_daily_progress Tscram = .ok [("2025-05-12", 7), ("2025-05-10", 5)] ∧
    parseDate? "2025-05-10" = some 20250510 ∧
    parseDate? "2025-05-12" = some 20250512 ∧
    ¬ (20250512 : Nat) ≤ 20250510 := by
  refine ⟨?_, by decide, by decide, by decide⟩
  have key : get_daily_progress Tscram
      = .ok [("2025-05-12", List.sum [(7 : ℚ)]), ("2025-05-10", List.sum [(5 : ℚ)])] := rfl
  rw [key]
  norm_num

/-- C2 (amended): the daily-progress series actually rendered
(`create_daily_progress_chart`) is sorted ascending by parsed date and its
date strings are the canonical serializations of an ascending key
sequence, regardless of input column order. -/
theorem C2_chart_sorted (t : Table) (fcols : List String) (r : List (String × ℚ))
    (h : chartDailyData t fcols = .ok r) :
    ∃ ks : List Nat, r.map Prod.fst = ks.map formatDateKey ∧
      List.Pairwise (fun a b => a ≤ b) ks := by
  unfold chartDailyData at h
  by_cases h1 : (chartDatedCols t fcols).isEmpty = true
  · rw [if_pos h1] at h
    obtain rfl : ([] : List (String × ℚ)) = r := by simpa using h
    exact ⟨[], by simp, by simp⟩
  · rw [if_neg h1] at h
    by_cases h2 : (chartPoints t fcols).isEmpty = true
    · rw [if_pos h2] at h
      obtain rfl : ([] : List (String × ℚ)) = r := by simpa using h
      exact ⟨[], by simp, by simp⟩
    · rw [if_neg h2] at h
      cases hm : (chartPoints t fcols).mapM (fun p =>
          match parseDate? p.1 with
          | some k => Except.ok (k, p.2)
          | none => Except.error ("dateparse: " ++ p.1)) with
      | error e => rw [hm] at h; simp at h
      | ok keyed =>
        rw [hm] at h
        have hr : r = (keyed.insertionSort keyLeP).map (fun p => (formatDateKey p.1, p.2)) := by
          simpa using h.symm
        subst hr
        refine ⟨(keyed.insertionSort keyLeP).map Prod.fst, ?_, ?_⟩
        · rw [List.map_map, List.map_map]
          rfl
        · have hsorted : List.Pairwise keyLeP (keyed.insertionSort keyLeP) :=
            List.sorted_insertionSort keyLeP keyed
          exact hsorted.map Prod.fst (fun a b hab => hab)

theorem C2_witness :
    ∃ ks : List Nat,
      (([("2025-05-10", (0 : ℚ)), ("2025-05-12", (0 : ℚ))]).map Prod.fst)
        = ks.map formatDateKey ∧
      List.Pairwise (fun a b => a ≤ b) ks :=
  C2_chart_sorted TscramEmpty [] [("2025-05-10", 0), ("2025-05-12", 0)] (by rfl)

/-- C6: date-range filtering keeps exactly the dated columns whose embedded
date lies within the inclusive range, and falls back to the single latest
dated column when that subset is empty but dated columns exist, so the
result is empty only when the table has no dated column at all. -/
theorem C6_date_range (cols : List String) (s e : String)
    (hwf : ∀ c ∈ datedCols cols, strContainsChar c '(' = true) :
    (filterDateColumns cols s e = [] ↔ datedCols cols = []) ∧
    (∀ c ∈ filterDateColumns cols s e, c ∈ datedCols cols) ∧
    ((∃ c ∈ datedCols cols, dateInRange s e c) →
      ∀ c, c ∈ filterDateColumns cols s e ↔ c ∈ datedCols cols ∧ dateInRange s e c) ∧
    ((datedCols cols ≠ [] ∧ ∀ c ∈ datedCols cols, ¬ dateInRange s e c) →
      filterDateColumns cols s e = [(datedCols cols).getLastD ""]) := by
  have hpred : ∀ c, (strLe s (extractDate c) && strLe (extractDate c) e) = true
      ↔ dateInRange s e c := by
    intro c
    rw [Bool.and_eq_true]
    exact Iff.rfl
  have hmemIR : ∀ c, c ∈ inRangeCols cols s e ↔ c ∈ datedCols cols ∧ dateInRange s e c := by
    intro c
    unfold inRangeCols
    rw [List.mem_filter]
    exact and_congr_right (fun _ => hpred c)
  by_cases hi : inRangeCols cols s e = []
  · by_cases hd : datedCols cols = []
    · have hres : filterDateColumns cols s e = [] := by
        unfold filterDateColumns
        rw [hi, hd]
        rfl
      refine ⟨by rw [hres, hd], ?_, ?_, ?_⟩
      · intro c hc
        rw [hres] at hc
        simp at hc
      · rintro ⟨c, hc, _⟩
        rw [hd] at hc
        simp at hc
      · rintro ⟨hne, _⟩
        exact absurd hd hne
    · have h2 : (datedCols cols).isEmpty = false := isEmpty_false_of_ne_nil hd
      have hres : filterDateColumns cols s e = [(datedCols cols).getLastD ""] := by
        unfold filterDateColumns
        rw [hi, h2]
        rfl
      have hlast : (datedCols cols).getLastD "" ∈ datedCols cols := by
        rw [List.getLastD_eq_getLast?, List.getLast?_eq_getLast _ hd]
        exact List.getLast_mem hd
      refine ⟨?_, ?_, ?_, fun _ => hres⟩
      · rw [hres]
        simp [hd]
      · intro c hc
        rw [hres, List.mem_singleton] at hc
        exact hc ▸ hlast
      · rintro ⟨c, hc, hcr⟩
        have hmem : c ∈ inRangeCols cols s e := (hmemIR c).mpr ⟨hc, hcr⟩
        rw [hi] at hmem
        simp at hmem
  · have hd : datedCols cols ≠ [] := by
      intro hcon
      refine hi ?_
      unfold inRangeCols
      rw [hcon]
      rfl
    have h1 : (inRangeCols cols s e).isEmpty = false := isEmpty_false_of_ne_nil hi
    have hres : filterDateColumns cols s e = inRangeCols cols s e := by
      unfold filterDateColumns
      rw [h1]
      rfl
    refine ⟨?_, ?_, ?_, ?_⟩
    · rw [hres]
      constructor
      · intro hcon
        exact absurd hcon hi
      · intro hcon
        exact absurd hcon hd
    · intro c hc
      rw [hres] at hc
      exact ((hmemIR c).mp hc).1
    · intro _ c
      rw [hres]
      exact hmemIR c
    · rintro ⟨_, hall⟩
      obtain ⟨c, hc⟩ := List.exists_mem_of_ne_nil _ hi
      have hcf := (hmemIR c).mp hc
      exact absurd hcf.2 (hall c hcf.1)

theorem C6_witness :
    (filterDateColumns Tdemo.cols "2025-05-11" "2025-05-12" = []
      ↔ datedCols Tdemo.cols = []) ∧
    (∀ c ∈ filterDateColumns Tdemo.cols "2025-05-11" "2025-05-12", c ∈ datedCols Tdemo.cols) ∧
    ((∃ c ∈ datedCols Tdemo.cols, dateInRange "2025-05-11" "2025-05-12" c) →
      ∀ c, c ∈ filterDateColumns Tdemo.cols "2025-05-11" "2025-05-12"
        ↔ c ∈ datedCols Tdemo.cols ∧ dateInRange "2025-05-11" "2025-05-12" c) ∧
    ((datedCols Tdemo.cols ≠ [] ∧
        ∀ c ∈ datedCols Tdemo.cols, ¬ dateInRange "2025-05-11" "2025-05-12" c) →
      filterDateColumns Tdemo.cols "2025-05-11" "2025-05-12"
        = [(datedCols Tdemo.cols).getLastD ""]) :=
  C6_date_range Tdemo.cols "2025-05-11" "2025-05-12" (by decide)

theorem trimCell_toStr (c : Cell) : (trimCell c).toStr = trimStr c.toStr := by
  cases c <;> rfl

theorem set_trim_getD (r : List Cell) (i : Nat) :
    ((r.set i (trimCell (r.getD i (Cell.s "")))).getD i (Cell.s "")).toStr
      = trimStr ((r.getD i (Cell.s "")).toStr) := by
  by_cases hlen : i < r.length
  · rw [List.getD_eq_getElem?_getD, List.getElem?_set, if_pos rfl, if_pos hlen]
    exact trimCell_toStr _
  · have hge : r.length ≤ i := le_of_not_lt hlen
    rw [List.getD_eq_getElem?_getD, List.getElem?_set, if_pos rfl, if_neg hlen]
    rw [List.getD_eq_getElem?_getD, List.getElem?_eq_none hge]
    rfl

/-- C8: the loader propagates a read/parse error verbatim (no silent
empty-table fallback), and on success returns the table with the Cluster
column trimmed of surrounding whitespace (other columns and the column
list unchanged). -/
theorem C8_loader :
    (∀ e, _load_data_cached (.error e) = .error e) ∧
    (∀ t : Table, "Cluster" ∈ t.cols → ∃ t', _load_data_cached (.ok t) = .ok t' ∧
      t'.cols = t.cols ∧ t'.strValsD "Cluster" = (t.strValsD "Cluster").map trimStr) := by
  constructor
  · intro e
    rfl
  · intro t h
    have hs : (t.colIdx "Cluster").isSome = true := (colIdx_isSome_iff t "Cluster").mpr h
    cases hidx : t.colIdx "Cluster" with
    | none => rw [hidx] at hs; simp at hs
    | some i =>
      refine ⟨⟨t.cols, t.rows.map (fun r => r.set i (trimCell (r.getD i (Cell.s ""))))⟩,
        ?_, rfl, ?_⟩
      · simp only [_load_data_cached]
        rw [hidx]
      · have hidx' : Table.colIdx
            ⟨t.cols, t.rows.map (fun r => r.set i (trimCell (r.getD i (Cell.s ""))))⟩
              "Cluster" = some i := hidx
        unfold Table.strValsD
        rw [hidx', hidx]
        show (t.rows.map (fun r => r.set i (trimCell (r.getD i (Cell.s ""))))).map
            (fun r => (r.getD i (Cell.s "")).toStr)
          = (t.rows.map (fun r => (r.getD i (Cell.s "")).toStr)).map trimStr
        rw [List.map_map, List.map_map]
        exact List.map_congr_left (fun r _ => set_trim_getD r i)

theorem C8_witness :
    _load_data_cached (.error "read error") = .error "read error" ∧
    ∃ t', _load_data_cached (.ok Tpad) = .ok t' ∧ t'.cols = Tpad.cols ∧
      t'.strValsD "Cluster" = (Tpad.strValsD "Cluster").map trimStr :=
  ⟨C8_loader.1 "read error", C8_loader.2 Tpad (by decide)⟩

/-- C5: `update_filter_options` derives cluster options from the
vendor-narrowed rows and site options from the vendor-plus-cluster-narrowed
rows (narrowing by the surviving cluster selection), and every previously
selected cluster or site absent from the corresponding option set is
dropped, so the returned selections are subsets of the returned options. -/
theorem C5_cascading (t : Table) (sv sc ss : List String)
    (hV : "Vendor" ∈ t.cols) (hC : "Cluster" ∈ t.cols) (hU : "ULB" ∈ t.cols) :
    ∃ co vc so vs,
      update_filter_options t sv sc ss = .ok (co, vc, so, vs) ∧
      (∀ c ∈ vc, c ∈ co) ∧ (∀ s ∈ vs, s ∈ so) ∧
      (∀ c, c ∈ co ↔ ∃ r ∈ t.rows,
        (sv = [] ∨ rowStr t.cols r "Vendor" ∈ sv) ∧ rowStr t.cols r "Cluster" = c) ∧
      (∀ s, s ∈ so ↔ ∃ r ∈ t.rows,
        (sv = [] ∨ rowStr t.cols r "Vendor" ∈ sv) ∧
        (vc = [] ∨ rowStr t.cols r "Cluster" ∈ vc) ∧ rowStr t.cols r "ULB" = s) := by
  obtain ⟨df1, hdf1, hcols1, hrows1⟩ : ∃ df1,
      (if sv.isEmpty then Except.ok t else t.filterIsin "Vendor" sv) = .ok df1 ∧
      df1.cols = t.cols ∧
      (∀ r, r ∈ df1.rows ↔ r ∈ t.rows ∧ (sv = [] ∨ rowStr t.cols r "Vendor" ∈ sv)) := by
    by_cases hsv : sv.isEmpty = true
    · have hsv' : sv = [] := eq_nil_of_isEmpty hsv
      exact ⟨t, by rw [if_pos hsv], rfl, fun r => by simp [hsv']⟩
    · have hsv' : sv ≠ [] := ne_nil_of_isEmpty_false hsv
      refine ⟨⟨t.cols, t.rows.filter (fun r => decide (rowStr t.cols r "Vendor" ∈ sv))⟩,
        by rw [if_neg hsv, filterIsin_ok hV sv], rfl, fun r => ?_⟩
      show r ∈ t.rows.filter (fun r => decide (rowStr t.cols r "Vendor" ∈ sv)) ↔ _
      rw [List.mem_filter]
      constructor
      · rintro ⟨h1, h2⟩
        exact ⟨h1, Or.inr (of_decide_eq_true h2)⟩
      · rintro ⟨h1, h2 | h2⟩
        · exact absurd h2 hsv'
        · exact ⟨h1, decide_eq_true h2⟩
  have hC1 : "Cluster" ∈ df1.cols := by rw [hcols1]; exact hC
  have hU1 : "ULB" ∈ df1.cols := by rw [hcols1]; exact hU
  have hcoMem : ∀ c, c ∈ (df1.strValsD "Cluster").dedup.insertionSort strLeP ↔
      ∃ r ∈ t.rows, (sv = [] ∨ rowStr t.cols r "Vendor" ∈ sv) ∧
        rowStr t.cols r "Cluster" = c := by
    intro c
    rw [List.mem_insertionSort, List.mem_dedup, strValsD_mem hC1 c]
    constructor
    · rintro ⟨r, hr, hrc⟩
      obtain ⟨hrt, hrv⟩ := (hrows1 r).mp hr
      rw [hcols1] at hrc
      exact ⟨r, hrt, hrv, hrc⟩
    · rintro ⟨r, hrt, hrv, hrc⟩
      refine ⟨r, (hrows1 r).mpr ⟨hrt, hrv⟩, ?_⟩
      rw [hcols1]
      exact hrc
  have hsites : ∀ (df2 : Table) (co vc : List String), df2.cols = t.cols →
      (∀ r, r ∈ df2.rows ↔ r ∈ t.rows ∧ (sv = [] ∨ rowStr t.cols r "Vendor" ∈ sv) ∧
        (vc = [] ∨ rowStr t.cols r "Cluster" ∈ vc)) →
      ∃ so vs, ufoSites df2 co vc ss = .ok (co, vc, so, vs) ∧
        (∀ s ∈ vs, s ∈ so) ∧
        (∀ s, s ∈ so ↔ ∃ r ∈ t.rows,
          (sv = [] ∨ rowStr t.cols r "Vendor" ∈ sv) ∧
          (vc = [] ∨ rowStr t.cols r "Cluster" ∈ vc) ∧ rowStr t.cols r "ULB" = s) := by
    intro df2 co vc hcols2 hrows2
    obtain ⟨so, vs, hrun, hsub, hsoMem⟩ := ufoSites_spec df2 co vc ss
      (by rw [hcols2]; exact hU)
    refine ⟨so, vs, hrun, hsub, fun s => ?_⟩
    rw [hsoMem s]
    constructor
    · rintro ⟨r, hr, hru⟩
      obtain ⟨hrt, hrv, hrc⟩ := (hrows2 r).mp hr
      rw [hcols2] at hru
      exact ⟨r, hrt, hrv, hrc, hru⟩
    · rintro ⟨r, hrt, hrv, hrc, hru⟩
      refine ⟨r, (hrows2 r).mpr ⟨hrt, hrv, hrc⟩, ?_⟩
      rw [hcols2]
      exact hru
  by_cases hsc : sc.isEmpty = true
  · have hsc' : sc = [] := eq_nil_of_isEmpty hsc
    obtain ⟨so, vs, hrun, hsub, hsoMem⟩ := hsites df1
      ((df1.strValsD "Cluster").dedup.insertionSort strLeP) sc hcols1
      (fun r => by
        rw [hrows1 r, hsc']
        simp [and_assoc])
    refine ⟨_, sc, so, vs, ?_, ?_, hsub, hcoMem, hsoMem⟩
    · simp only [update_filter_options, hdf1, strCol_ok df1 hC1]
      rw [if_pos hsc]
      exact hrun
    · rw [hsc']
      intro c hc
      simp at hc
  · by_cases hvalid : (sc.filter (fun c =>
        decide (c ∈ (df1.strValsD "Cluster").dedup.insertionSort strLeP))).isEmpty = true
    · have hval' : sc.filter (fun c =>
          decide (c ∈ (df1.strValsD "Cluster").dedup.insertionSort strLeP)) = [] :=
        eq_nil_of_isEmpty hvalid
      obtain ⟨so, vs, hrun, hsub, hsoMem⟩ := hsites df1
        ((df1.strValsD "Cluster").dedup.insertionSort strLeP) [] hcols1
        (fun r => by
          rw [hrows1 r]
          simp [and_assoc])
      refine ⟨_, [], so, vs, ?_, ?_, hsub, hcoMem, hsoMem⟩
      · simp only [update_filter_options, hdf1, strCol_ok df1 hC1]
        rw [if_neg hsc, if_pos hvalid]
        exact hrun
      · intro c hc
        simp at hc
    · have hval' : sc.filter (fun c =>
          decide (c ∈ (df1.strValsD "Cluster").dedup.insertionSort strLeP)) ≠ [] :=
        ne_nil_of_isEmpty_false hvalid
      obtain ⟨so, vs, hrun, hsub, hsoMem⟩ := hsites
        ⟨df1.cols, df1.rows.filter (fun r => decide (rowStr df1.cols r "Cluster" ∈
          sc.filter (fun c =>
            decide (c ∈ (df1.strValsD "Cluster").dedup.insertionSort strLeP))))⟩
        ((df1.strValsD "Cluster").dedup.insertionSort strLeP)
        (sc.filter (fun c =>
          decide (c ∈ (df1.strValsD "Cluster").dedup.insertionSort strLeP)))
        hcols1
        (fun r => by
          show r ∈ df1.rows.filter _ ↔ _
          rw [List.mem_filter, hrows1 r]
          constructor
          · rintro ⟨⟨hrt, hrv⟩, h2⟩
            rw [hcols1] at h2
            exact ⟨hrt, hrv, Or.inr (of_decide_eq_true h2)⟩
          · rintro ⟨hrt, hrv, hrc | hrc⟩
            · exact absurd hrc hval'
            · refine ⟨⟨hrt, hrv⟩, ?_⟩
              rw [hcols1]
              exact decide_eq_true hrc)
      refine ⟨_, _, so, vs, ?_, ?_, hsub, hcoMem, hsoMem⟩
      · simp only [update_filter_options, hdf1, strCol_ok df1 hC1]
        rw [if_neg hsc, if_neg hvalid, filterIsin_ok hC1]
        exact hrun
      · intro c hc
        exact of_decide_eq_true (List.mem_filter.mp hc).2

theorem C5_witness :
    ∃ co vc so vs,
      update_filter_options Tdemo ["V1"] ["C1", "C2"] ["S2"] = .ok (co, vc, so, vs) ∧
      (∀ c ∈ vc, c ∈ co) ∧ (∀ s ∈ vs, s ∈ so) ∧
      (∀ c, c ∈ co ↔ ∃ r ∈ Tdemo.rows,
        ((["V1"] : List String) = [] ∨ rowStr Tdemo.cols r "Vendor" ∈ (["V1"] : List String)) ∧
        rowStr Tdemo.cols r "Cluster" = c) ∧
      (∀ s, s ∈ so ↔ ∃ r ∈ Tdemo.rows,
        ((["V1"] : List String) = [] ∨ rowStr Tdemo.cols r "Vendor" ∈ (["V1"] : List String)) ∧
        (vc = [] ∨ rowStr Tdemo.cols r "Cluster" ∈ vc) ∧ rowStr Tdemo.cols r "ULB" = s) :=
  C5_cascading Tdemo ["V1"] ["C1", "C2"] ["S2"] (by decide) (by decide) (by decide)

end SACDB
